import Mathlib

/-!
# go-demo-web and go-web-server: handlers, route tables and start-up configuration

A shallow embedding of the two programs `app/go-demo-web/main.go` and
`app/go-web-server/main.go`.

The programs are glue around the Go standard library and gorilla/mux.  The
parts of those libraries that the programs call are modelled in the first
sections (`GoString`, `UTF8`, `OS`, `Strconv`, `JSON`, `HTTP`, `Mux`); the program
text itself is embedded in the namespaces `GoDemoWeb` and `GoWebServer`, one
definition per source function, with the source's names.

Everything that a handler reads from the outside world is an explicit argument:
the process environment, the host name, the clock reading (`time.Now().UnixMicro()`),
the random draw (`rand.Float64()`) and the float parser (`strconv.ParseFloat(·, 64)`).
-/

/-! ## Go strings -/

/-- A Go string: a sequence of bytes.  It need not be valid UTF-8: a request-target, a
header value, a form value, an environment value or a host name can hold any bytes. -/
abbrev GoString := List UInt8

/-- The bytes of a string literal of the source; the literals of the two programs are
ASCII, one byte per character. -/
def ascii (s : String) : GoString :=
  s.data.map (fun c => c.toNat.toUInt8)

/-! ## unicode/utf8 -/

namespace UTF8

/-- The table `first` of unicode/utf8 for a leading byte of a multi-byte encoding: the
size of the encoding and the accepted range of the second byte; `none` for a byte
that starts no multi-byte encoding. -/
def first (b0 : UInt8) : Option (Nat × UInt8 × UInt8) :=
  if 0xC2 ≤ b0 ∧ b0 ≤ 0xDF then some (2, 0x80, 0xBF)
  else if b0 = 0xE0 then some (3, 0xA0, 0xBF)
  else if 0xE1 ≤ b0 ∧ b0 ≤ 0xEC then some (3, 0x80, 0xBF)
  else if b0 = 0xED then some (3, 0x80, 0x9F)
  else if 0xEE ≤ b0 ∧ b0 ≤ 0xEF then some (3, 0x80, 0xBF)
  else if b0 = 0xF0 then some (4, 0x90, 0xBF)
  else if 0xF1 ≤ b0 ∧ b0 ≤ 0xF3 then some (4, 0x80, 0xBF)
  else if b0 = 0xF4 then some (4, 0x80, 0x8F)
  else none

/-- A continuation byte: 0x80 to 0xBF. -/
def continuation (b : UInt8) : Bool :=
  decide (0x80 ≤ b) && decide (b ≤ 0xBF)

/-- The size that `utf8.DecodeRuneInString` returns where it decodes a rune: the number of
bytes of the valid encoding at the start of the string; `none` where the function
returns `RuneError` with size 0 or 1 (empty string, invalid or truncated encoding). -/
def runeLen : GoString → Option Nat
  | [] => none
  | s0 :: rest =>
    if s0 < 0x80 then some 1
    else
      match first s0 with
      | none => none
      | some (size, lo, hi) =>
        match rest with
        | [] => none
        | s1 :: rest1 =>
          if s1 < lo ∨ hi < s1 then none
          else if size ≤ 2 then some 2
          else
            match rest1 with
            | [] => none
            | s2 :: rest2 =>
              if continuation s2 = false then none
              else if size ≤ 3 then some 3
              else
                match rest2 with
                | [] => none
                | s3 :: _ => if continuation s3 = false then none else some 4

/-- The loop of `utf8.ValidString`; the first argument counts the bytes still to skip of
the encoding that was just accepted. -/
def validFrom : Nat → GoString → Bool
  | _, [] => true
  | k + 1, _ :: rest => validFrom k rest
  | 0, b :: rest =>
    match runeLen (b :: rest) with
    | some n => validFrom (n - 1) rest
    | none => false

/-- The function `utf8.ValidString`: the string consists of valid UTF-8 encodings only. -/
def ValidString (s : GoString) : Bool :=
  validFrom 0 s

end UTF8

/-! ## os -/

namespace OS

/-- The process environment: the variables that are set, with their values. -/
abbrev Environ := List (GoString × GoString)

/-- The function `os.LookupEnv`: the value of the variable and whether it is set. -/
def LookupEnv (env : Environ) (name : GoString) : GoString × Bool :=
  match env.lookup name with
  | some value => (value, true)
  | none => (ascii "", false)

end OS

/-! ## float64 and strconv -/

/-- The values of a Go `float64`, as far as comparison and JSON encoding can tell
them apart: not-a-number, the two infinities, and the finite values.  A finite
value is represented by the rational number it denotes (every finite float64
denotes one; the two zeros denote the same number and compare equal). -/
inductive Float64 where
  | nan
  | negInf
  | finite (q : ℚ)
  | posInf
deriving DecidableEq

namespace Float64

/-- The Go comparison `a > b` on float64 (IEEE 754: false whenever an operand is NaN). -/
def gt : Float64 → Float64 → Bool
  | nan, _ => false
  | _, nan => false
  | posInf, posInf => false
  | posInf, _ => true
  | _, posInf => false
  | negInf, _ => false
  | finite _, negInf => true
  | finite a, finite b => decide (b < a)

/-- The value is neither NaN nor an infinity. -/
def isFinite : Float64 → Bool
  | finite _ => true
  | _ => false

/-- The range of `rand.Float64()`: the half-open interval [0.0, 1.0). -/
def inUnitInterval : Float64 → Bool
  | finite q => decide (0 ≤ q) && decide (q < 1)
  | _ => false

end Float64

namespace Strconv

/-- The two errors of `strconv.ParseFloat`. -/
inductive NumError where
  | ErrSyntax
  | ErrRange
deriving DecidableEq

deriving instance DecidableEq for Except

/-- The type of `strconv.ParseFloat(·, 64)`: a float64, or an error. -/
abbrev FloatParser := GoString → Except NumError Float64

/-- What `strconv.ParseFloat(s, 64)` returns on the literals used in the examples of
this development; any other string is outside the table and reads as a syntax
error here.  The general results below hold for every `FloatParser` and do not
depend on this table. -/
def parseFloatTable : FloatParser := fun s =>
  if s = ascii "0" then .ok (.finite 0)
  else if s = ascii "0.25" then .ok (.finite (mkRat 1 4))
  else if s = ascii "0.5" then .ok (.finite (mkRat 1 2))
  else if s = ascii "1" then .ok (.finite 1)
  else if s = ascii "2" then .ok (.finite 2)
  else if s = ascii "-1" then .ok (.finite (-1))
  else if s = ascii "Inf" then .ok .posInf
  else if s = ascii "-Inf" then .ok .negInf
  else if s = ascii "NaN" then .ok .nan
  else if s = ascii "1e999" then .error .ErrRange
  else if s = ascii "" then .error .ErrSyntax
  else if s = ascii "abc" then .error .ErrSyntax
  else .error .ErrSyntax

end Strconv

/-! ## encoding/json -/

namespace JSON

/-- The text of a JSON string: valid UTF-8. -/
abbrev Text := GoString

/-- The loop of the string encoder of encoding/json, at the level of the text it
denotes: a valid UTF-8 encoding is kept, and every byte that is not part of one is
replaced by U+FFFD (the bytes EF BF BD).  The first argument counts the bytes still
to copy of the encoding that was just accepted. -/
def stringFrom : Nat → GoString → Text
  | _, [] => []
  | k + 1, b :: rest => b :: stringFrom k rest
  | 0, b :: rest =>
    match UTF8.runeLen (b :: rest) with
    | some n => b :: stringFrom (n - 1) rest
    | none => 0xEF :: 0xBF :: 0xBD :: stringFrom 0 rest

/-- The text that encoding/json writes for a Go string. -/
def encodeString (s : GoString) : Text :=
  stringFrom 0 s

/-- The http.Header type: header name to the ordered sequence of its values.  A Go
map is modelled as an association list; a key is looked up with `List.lookup`. -/
abbrev Header := List (GoString × List GoString)

/-- The JSON values that occur as members of the two response objects. -/
inductive Value where
  | int (n : Int)
  | num (q : ℚ)
  | str (s : Text)
  /-- An object whose members are arrays of strings. -/
  | headers (h : List (Text × List Text))
deriving DecidableEq

/-- A JSON object: its members in the order the encoder writes them.  The member names
are the names in the struct tags. -/
abbrev Object := List (String × Value)

/-- The error of `json.Marshal` on a value that has no JSON representation. -/
inductive UnsupportedValueError where
  | float (f : Float64)
deriving DecidableEq

/-- The float64 encoder of encoding/json: NaN and the infinities are unsupported. -/
def encodeFloat : Float64 → Except UnsupportedValueError Value
  | .finite q => .ok (.num q)
  | f => .error (.float f)

/-- The encoder of encoding/json on a `map[string][]string`: every key and every value
goes through the string encoder; the values of a key keep their order. -/
def encodeHeader (h : Header) : Value :=
  .headers (h.map (fun kv => (encodeString kv.1, kv.2.map encodeString)))

/-- A struct field tagged `omitempty` is left out when its value is empty. -/
def omitempty (isEmpty : Bool) (name : String) (v : Value) : Object :=
  if isEmpty then [] else [(name, v)]

end JSON

/-! ## net/http -/

namespace HTTP

def StatusOK : Nat := 200
def StatusUnprocessableEntity : Nat := 422
def StatusInternalServerError : Nat := 500
def StatusServiceUnavailable : Nat := 503

def MethodGet : GoString := ascii "GET"

/-- The fields of `*http.Request` that the handlers and the router read, as net/http
hands them to a handler. -/
structure Request where
  Method : GoString
  /-- The unmodified request-target of the request line, as sent by the client. -/
  RequestURI : GoString
  /-- The field `URL.Path`. -/
  Path : GoString
  /-- The header map of the request (net/http keeps the Host header out of it). -/
  Header : JSON.Header
  /-- The parsed form (`url.Values`): parameter name to its values. -/
  Form : List (GoString × List GoString)

/-- The method `(*http.Request).FormValue`: the first value of the parameter, or the
empty string when there is none. -/
def Request.FormValue (req : Request) (key : GoString) : GoString :=
  match req.Form.lookup key with
  | some (v :: _) => v
  | _ => ascii ""

/-- The state of an `http.ResponseWriter`: the header map, the status code once it has
been written, and the chunks written to the body (each chunk is the encoding of
one JSON object). -/
structure ResponseWriter where
  header : List (String × String) := []
  status : Option Nat := none
  body : List JSON.Object := []
deriving DecidableEq

namespace ResponseWriter

/-- The call `w.Header().Set(key, value)`, for a key given in canonical form. -/
def HeaderSet (w : ResponseWriter) (key value : String) : ResponseWriter :=
  match w.status with
  | none => { w with header := (key, value) :: w.header.filter (fun kv => kv.1 != key) }
  | some _ => w

/-- The call `w.WriteHeader(code)`: the first call fixes the status code. -/
def WriteHeader (w : ResponseWriter) (code : Nat) : ResponseWriter :=
  match w.status with
  | none => { w with status := some code }
  | some _ => w

/-- The call `w.Write(data)`: writes the header with status 200 if none was written yet. -/
def Write (w : ResponseWriter) (data : JSON.Object) : ResponseWriter :=
  let w := w.WriteHeader StatusOK
  { w with body := w.body ++ [data] }

/-- The status code the client receives: 200 if the handler wrote none. -/
def statusCode (w : ResponseWriter) : Nat :=
  w.status.getD StatusOK

/-- The response the client receives: the status code and the body. -/
def response (w : ResponseWriter) : Nat × List JSON.Object :=
  (w.statusCode, w.body)

end ResponseWriter

end HTTP

/-! ## gorilla/mux -/

namespace Mux

/-- The byte `/`. -/
def slash : UInt8 := 0x2F

/-- The function `path.Clean` on the segments of a rooted path: empty segments and
`.` are dropped, `..` removes the segment before it (and is dropped at the root).
The first argument is the stack of kept segments, last kept first. -/
def cleanSegments : List GoString → List GoString → List GoString
  | stack, [] => stack.reverse
  | stack, seg :: rest =>
    if seg = ascii "" ∨ seg = ascii "." then cleanSegments stack rest
    else if seg = ascii ".." then cleanSegments stack.tail rest
    else cleanSegments (seg :: stack) rest

/-- The segments of a path: the pieces between slashes. -/
def splitSlash : GoString → List GoString
  | [] => [[]]
  | c :: cs =>
    if c = slash then [] :: splitSlash cs
    else
      match splitSlash cs with
      | [] => [[c]]
      | seg :: segs => (c :: seg) :: segs

/-- Segments written as a rooted path: a slash before each segment. -/
def joinSlash : List GoString → GoString
  | [] => []
  | seg :: segs => slash :: seg ++ joinSlash segs

/-- The function `path.Clean` on a rooted path (one that starts with a slash). -/
def pathCleanRooted (p : GoString) : GoString :=
  match cleanSegments [] (splitSlash p) with
  | [] => [slash]
  | segs => joinSlash segs

/-- The function `cleanPath` of mux: the canonical form of a URL path.  The empty path
becomes `/`, a missing leading slash is added, the path is cleaned, and a
trailing slash is kept. -/
def cleanPath (p : GoString) : GoString :=
  if p = [] then [slash]
  else
    let p := if p.head? = some slash then p else slash :: p
    let np := pathCleanRooted p
    if p.getLast? = some slash ∧ np ≠ [slash] then np ++ [slash] else np

/-- The handlers the two programs register. -/
inductive Handler where
  /-- The handler returned by `healthchecker.HTTPHandler()`. -/
  | health
  | handleRandomError
  | handleRoot
deriving DecidableEq

/-- The matchers the programs attach to a route.  The templates contain no variables
and strict-slash is off, so `Path` matches the URL path exactly and `PathPrefix`
matches every URL path that starts with the template. -/
inductive Matcher where
  | path (tpl : GoString)
  | pathPrefix (tpl : GoString)
  | methods (ms : List GoString)
deriving DecidableEq

def Matcher.Match (m : Matcher) (req : HTTP.Request) : Bool :=
  match m with
  | .path tpl => req.Path == tpl
  | .pathPrefix tpl => tpl.isPrefixOf req.Path
  | .methods ms => ms.contains req.Method

/-- A route: its matchers in the order they were added, and its handler. -/
structure Route where
  matchers : List Matcher := []
  handler : Option Handler := none
deriving DecidableEq

namespace Route

def Path (r : Route) (tpl : GoString) : Route :=
  { r with matchers := r.matchers ++ [.path tpl] }

def PathPrefix (r : Route) (tpl : GoString) : Route :=
  { r with matchers := r.matchers ++ [.pathPrefix tpl] }

def Methods (r : Route) (ms : List GoString) : Route :=
  { r with matchers := r.matchers ++ [.methods ms] }

def HandlerFunc (r : Route) (h : Handler) : Route :=
  { r with handler := some h }

/-- The outcome of matching one route against a request. -/
inductive Outcome where
  | matched
  | methodMismatch
  | noMatch
deriving DecidableEq

/-- The loop of `(*Route).Match` over the matchers: a failing method matcher is
remembered and the loop goes on, any other failing matcher ends it. -/
def matchLoop (req : HTTP.Request) : List Matcher → Bool → Outcome
  | [], mismatch => if mismatch then .methodMismatch else .matched
  | m :: ms, mismatch =>
    if m.Match req then matchLoop req ms mismatch
    else
      match m with
      | .methods _ => matchLoop req ms true
      | _ => .noMatch

def Match (r : Route) (req : HTTP.Request) : Outcome :=
  matchLoop req r.matchers false

end Route

/-- A router: its routes in registration order. -/
structure Router where
  routes : List Route := []
deriving DecidableEq

/-- What the router does with a request. -/
inductive Dispatch where
  /-- The request is handed to a registered handler. -/
  | handler (h : Handler)
  /-- The router answers 301 (moved permanently) itself; the location is the cleaned path. -/
  | redirect (location : GoString)
  | methodNotAllowed
  | notFound
deriving DecidableEq

namespace Router

def NewRouter : Router := {}

/-- Appends a route to the table (`NewRoute` followed by the route's configuration). -/
def register (r : Router) (route : Route) : Router :=
  { r with routes := r.routes ++ [route] }

/-- The call `r.HandleFunc(path, f)`: a new route with `Path(path)` and handler `f`;
the last argument is the configuration chained onto the returned route. -/
def HandleFunc (r : Router) (path : GoString) (f : Handler) (chain : Route → Route) : Router :=
  r.register (chain ((({} : Route).Path path).HandlerFunc f))

/-- The loop of `(*Router).Match`: routes are tried first to last and the first one
that matches decides; a method mismatch is remembered for the 405 answer. -/
def matchRoutes (req : HTTP.Request) : List Route → Bool → Dispatch
  | [], mismatch => if mismatch then .methodNotAllowed else .notFound
  | route :: rest, mismatch =>
    match route.Match req with
    | .matched =>
      match route.handler with
      | some h => .handler h
      | none => if mismatch then .methodNotAllowed else .notFound
    | .methodMismatch => matchRoutes req rest true
    | .noMatch => matchRoutes req rest mismatch

def Match (r : Router) (req : HTTP.Request) : Dispatch :=
  matchRoutes req r.routes false

/-- The method `(*Router).ServeHTTP` with the default options: a URL path that is not in
canonical form is answered with a redirect to its canonical form, before any
route is tried; otherwise the route table decides. -/
def ServeHTTP (r : Router) (req : HTTP.Request) : Dispatch :=
  let p := cleanPath req.Path
  if p ≠ req.Path then .redirect p
  else r.Match req

end Router

end Mux

/-! ## app/go-demo-web/main.go -/

namespace GoDemoWeb

open HTTP

def getEnvar (env : OS.Environ) (name : GoString) (defaultValue : GoString) : GoString :=
  let (value, found) := OS.LookupEnv env name
  if !found then defaultValue
  else value

def gitBranch (env : OS.Environ) : GoString :=
  getEnvar env (ascii "GIT_BRANCH") (ascii "dev")

def gitHash (env : OS.Environ) : GoString :=
  getEnvar env (ascii "GIT_HASH") (ascii "dev")

structure rootResponse where
  Now : Int
  URI : GoString
  Headers : JSON.Header
  Hostname : GoString
  GitHash : GoString
  GitBranch : GoString
deriving DecidableEq

/-- The function `json.Marshal` on a `rootResponse`: every field is tagged `omitempty`, so
a zero number, an empty string and an empty map are left out; the strings and the
header map go through the string encoder, which replaces every byte that is not valid
UTF-8 by U+FFFD.  No value of the struct is unsupported, so the encoder never fails
here. -/
def rootResponse.Marshal (r : rootResponse) : Except JSON.UnsupportedValueError JSON.Object :=
  .ok (JSON.omitempty (r.Now == 0) "now" (.int r.Now)
    ++ JSON.omitempty r.URI.isEmpty "uri" (.str (JSON.encodeString r.URI))
    ++ JSON.omitempty r.Headers.isEmpty "headers" (JSON.encodeHeader r.Headers)
    ++ JSON.omitempty r.Hostname.isEmpty "hostname" (.str (JSON.encodeString r.Hostname))
    ++ JSON.omitempty r.GitHash.isEmpty "git_hash" (.str (JSON.encodeString r.GitHash))
    ++ JSON.omitempty r.GitBranch.isEmpty "git_branch" (.str (JSON.encodeString r.GitBranch)))

/-- The echo handler.  `hostname` is the package variable set by `main`, `now` is the
reading of `time.Now().UnixMicro()`. -/
def handleRoot (env : OS.Environ) (hostname : GoString) (now : Int)
    (w : ResponseWriter) (req : Request) : ResponseWriter :=
  let w := w.HeaderSet "Content-Type" "application/json"
  let ret : rootResponse :=
    { Now := now
      URI := req.RequestURI
      Headers := req.Header
      Hostname := hostname
      GitHash := gitHash env
      GitBranch := gitBranch env }
  match ret.Marshal with
  | .error _ => w.WriteHeader StatusServiceUnavailable
  | .ok j => w.Write j

structure handleRandomErrorResponse where
  Now : Int
  Chance : Float64
  Point : Float64
  Message : GoString
deriving DecidableEq

/-- The function `json.Marshal` on a `handleRandomErrorResponse`: no field is omitted; the
two float64 fields go through the float encoder, which rejects NaN and the
infinities; the message goes through the string encoder. -/
def handleRandomErrorResponse.Marshal (r : handleRandomErrorResponse) :
    Except JSON.UnsupportedValueError JSON.Object :=
  match JSON.encodeFloat r.Chance with
  | .error e => .error e
  | .ok chance =>
    match JSON.encodeFloat r.Point with
    | .error e => .error e
    | .ok point =>
      .ok [("now", .int r.Now), ("chance", chance), ("point", point),
        ("message", .str (JSON.encodeString r.Message))]

/-- The failure-injection handler.  `ParseFloat` is `strconv.ParseFloat(·, 64)`, `point`
is the value drawn by `rand.Float64()`, `now` the reading of `time.Now().UnixMicro()`. -/
def handleRandomError (ParseFloat : Strconv.FloatParser) (point : Float64) (now : Int)
    (w : ResponseWriter) (req : Request) : ResponseWriter :=
  let chance := req.FormValue (ascii "chance")
  let chance := if chance == ascii "" then ascii "0.25" else chance
  match ParseFloat chance with
  | .error _ => w.WriteHeader StatusUnprocessableEntity
  | .ok chanceVal =>
    let ret : handleRandomErrorResponse :=
      { Now := now
        Chance := chanceVal
        Point := point
        Message := ascii "" }
    let (code, ret) :=
      if chanceVal.gt point then
        (StatusInternalServerError, { ret with Message := ascii "Random failure!" })
      else
        (StatusOK, { ret with Message := ascii "Success!" })
    match ret.Marshal with
    | .error _ => w.WriteHeader StatusServiceUnavailable
    | .ok j => (w.WriteHeader code).Write j

/-- The string that `handleRandomError` hands to the parser: the form value of `chance`,
or `0.25` when that is empty. -/
def chanceValue (req : Request) : GoString :=
  let chance := req.FormValue (ascii "chance")
  if chance == ascii "" then ascii "0.25" else chance

def routes (r : Mux.Router) : Mux.Router :=
  r.register (((({} : Mux.Route).Path (ascii "/randomResult")).HandlerFunc
    .handleRandomError).Methods [MethodGet])

/-- The route table that `runHTTPServer` builds and serves.  Order matters. -/
def runHTTPServer : Mux.Router :=
  let r := Mux.Router.NewRouter
  let r := r.HandleFunc (ascii "/health") .health (fun route => route.Methods [MethodGet])
  let r := routes r
  let r := r.register (((({} : Mux.Route).PathPrefix (ascii "/")).HandlerFunc
    .handleRoot).Methods [MethodGet])
  r

/-- The URL that `newTracerProvider` exports to, if any: the exporter is added only for a
non-empty URL. -/
def newTracerProvider (url : GoString) (_githash : GoString) : Option GoString :=
  if url != ascii "" then some url else none

/-- The start of `main`, up to the call of `newTracerProvider`: returns the arguments of
that call.  `flagValue` is the value given to `-jaeger-endpoint` on the command
line, if the flag was given; the flag's default is the empty string. -/
def main (flagValue : Option GoString) (env : OS.Environ) : GoString × GoString :=
  let jaegerEndpoint := flagValue.getD (ascii "")
  let jaegerEndpoint :=
    if jaegerEndpoint.length == 0 then getEnvar env (ascii "JAEGER_TRACE_URL") (ascii "")
    else jaegerEndpoint
  (jaegerEndpoint, gitHash env)

end GoDemoWeb

/-! ## app/go-web-server/main.go -/

namespace GoWebServer

open HTTP

def getEnvar (env : OS.Environ) (name : GoString) (defaultValue : GoString) : GoString :=
  let (value, found) := OS.LookupEnv env name
  if !found then defaultValue
  else value

def gitBranch (env : OS.Environ) : GoString :=
  getEnvar env (ascii "GIT_BRANCH") (ascii "dev")

def gitHash (env : OS.Environ) : GoString :=
  getEnvar env (ascii "GIT_HASH") (ascii "dev")

structure rootResponse where
  Now : Int
  URI : GoString
  Headers : JSON.Header
  Hostname : GoString
  GitHash : GoString
  GitBranch : GoString
deriving DecidableEq

/-- The function `json.Marshal` on a `rootResponse`: every field is tagged `omitempty`, so
a zero number, an empty string and an empty map are left out; the strings and the
header map go through the string encoder, which replaces every byte that is not valid
UTF-8 by U+FFFD.  No value of the struct is unsupported, so the encoder never fails
here. -/
def rootResponse.Marshal (r : rootResponse) : Except JSON.UnsupportedValueError JSON.Object :=
  .ok (JSON.omitempty (r.Now == 0) "now" (.int r.Now)
    ++ JSON.omitempty r.URI.isEmpty "uri" (.str (JSON.encodeString r.URI))
    ++ JSON.omitempty r.Headers.isEmpty "headers" (JSON.encodeHeader r.Headers)
    ++ JSON.omitempty r.Hostname.isEmpty "hostname" (.str (JSON.encodeString r.Hostname))
    ++ JSON.omitempty r.GitHash.isEmpty "git_hash" (.str (JSON.encodeString r.GitHash))
    ++ JSON.omitempty r.GitBranch.isEmpty "git_branch" (.str (JSON.encodeString r.GitBranch)))

/-- A trace span event recorded through the package variable `tracer`. -/
inductive SpanEvent where
  | start (name : String)
  | finish (name : String)
deriving DecidableEq

/-- The echo handler of this variant: as in go-demo-web, inside a span named
`handleRoot` that is started before the response is built and ended on return.
Returns the writer and the span events. -/
def handleRoot (env : OS.Environ) (hostname : GoString) (now : Int)
    (w : ResponseWriter) (req : Request) : ResponseWriter × List SpanEvent :=
  let w := w.HeaderSet "Content-Type" "application/json"
  let spans := [SpanEvent.start "handleRoot"]
  let ret : rootResponse :=
    { Now := now
      URI := req.RequestURI
      Headers := req.Header
      Hostname := hostname
      GitHash := gitHash env
      GitBranch := gitBranch env }
  match ret.Marshal with
  | .error _ => (w.WriteHeader StatusServiceUnavailable, spans ++ [.finish "handleRoot"])
  | .ok j => (w.Write j, spans ++ [.finish "handleRoot"])

def routes (r : Mux.Router) : Mux.Router :=
  r.register (((({} : Mux.Route).PathPrefix (ascii "/")).HandlerFunc .handleRoot).Methods
    [MethodGet])

/-- The route table that `runHTTPServer` builds and serves. -/
def runHTTPServer : Mux.Router :=
  let r := Mux.Router.NewRouter
  let r := r.HandleFunc (ascii "/health") .health (fun route => route.Methods [MethodGet])
  let r := routes r
  r

/-- The URL that `newTracerProvider` exports to, if any. -/
def newTracerProvider (url : GoString) (_githash : GoString) : Option GoString :=
  if url != ascii "" then some url else none

/-- The start of `main`, up to the call of `newTracerProvider`: returns the arguments of
that call. -/
def main (flagValue : Option GoString) (env : OS.Environ) : GoString × GoString :=
  let jaegerEndpoint := flagValue.getD (ascii "")
  let jaegerEndpoint :=
    if jaegerEndpoint.length == 0 then getEnvar env (ascii "JAEGER_TRACE_URL") (ascii "")
    else jaegerEndpoint
  (jaegerEndpoint, gitHash env)

end GoWebServer

/-! ## Example requests -/

namespace Examples

/-- The request `GET /foo/bar` with the header `X-Test: 1`. -/
def getFooBar : HTTP.Request :=
  { Method := ascii "GET", RequestURI := ascii "/foo/bar", Path := ascii "/foo/bar",
    Header := [(ascii "X-Test", [ascii "1"])], Form := [] }

/-- The request `GET /randomResult?chance=v`, or `GET /randomResult` without it. -/
def getRandomResult (chance : Option String) : HTTP.Request :=
  match chance with
  | some v =>
    { Method := ascii "GET", RequestURI := ascii ("/randomResult?chance=" ++ v),
      Path := ascii "/randomResult", Header := [], Form := [(ascii "chance", [ascii v])] }
  | none =>
    { Method := ascii "GET", RequestURI := ascii "/randomResult",
      Path := ascii "/randomResult", Header := [], Form := [] }

/-- A GET request for a URL path, without headers or parameters. -/
def get (path : String) : HTTP.Request :=
  { Method := ascii "GET", RequestURI := ascii path, Path := ascii path, Header := [],
    Form := [] }

/-- The request `GET /` followed by the byte FF, which is not valid UTF-8, with the header
`X-Test: 1`. -/
def getInvalidUTF8 : HTTP.Request :=
  { Method := ascii "GET", RequestURI := ascii "/" ++ [0xFF], Path := ascii "/" ++ [0xFF],
    Header := [(ascii "X-Test", [ascii "1"])], Form := [] }

end Examples

/-! ## The string encoder -/

section StringEncoder

/-- The empty literal is the empty byte sequence. -/
theorem ascii_empty : ascii "" = [] := rfl

/-- The string encoder leaves the failure message as it is. -/
theorem encodeString_failure :
    JSON.encodeString (ascii "Random failure!") = ascii "Random failure!" := by decide

/-- The string encoder leaves the success message as it is. -/
theorem encodeString_success : JSON.encodeString (ascii "Success!") = ascii "Success!" := by
  decide

/-- Where the validity loop accepts, the encoder loop copies the bytes. -/
theorem stringFrom_of_validFrom (s : GoString) :
    ∀ k, UTF8.validFrom k s = true → JSON.stringFrom k s = s := by
  induction s with
  | nil =>
    intro k _
    cases k <;> rfl
  | cons b rest ih =>
    intro k h
    cases k with
    | succ k =>
      simp only [UTF8.validFrom] at h
      simp only [JSON.stringFrom, ih k h]
    | zero =>
      simp only [UTF8.validFrom] at h
      simp only [JSON.stringFrom]
      cases hr : UTF8.runeLen (b :: rest) with
      | none =>
        rw [hr] at h
        exact absurd h (by simp)
      | some n =>
        rw [hr] at h
        simp only [ih (n - 1) h]

/-- The string encoder leaves a valid UTF-8 string as it is. -/
theorem encodeString_of_valid (s : GoString) (h : UTF8.ValidString s = true) :
    JSON.encodeString s = s :=
  stringFrom_of_validFrom s 0 h

/-- A string of ASCII bytes is valid UTF-8. -/
theorem validString_of_ascii (s : GoString) (h : ∀ b ∈ s, b < 0x80) :
    UTF8.ValidString s = true := by
  unfold UTF8.ValidString
  induction s with
  | nil => rfl
  | cons b rest ih =>
    have hb : b < 0x80 := h b (List.mem_cons_self b rest)
    simp only [UTF8.validFrom, UTF8.runeLen, if_pos hb]
    exact ih (fun c hc => h c (List.mem_cons_of_mem b hc))

/-- The header encoder leaves a header map of valid UTF-8 strings as it is. -/
theorem encodeHeader_of_valid (h : JSON.Header)
    (hvalid : ∀ kv ∈ h, UTF8.ValidString kv.1 = true ∧ ∀ v ∈ kv.2, UTF8.ValidString v = true) :
    JSON.encodeHeader h = .headers h := by
  unfold JSON.encodeHeader
  congr 1
  induction h with
  | nil => rfl
  | cons kv rest ih =>
    have hkv := hvalid kv (List.mem_cons_self kv rest)
    have hvals : kv.2.map JSON.encodeString = kv.2 := by
      have : ∀ vs : List GoString, (∀ v ∈ vs, UTF8.ValidString v = true) →
          vs.map JSON.encodeString = vs := by
        intro vs
        induction vs with
        | nil => intro _; rfl
        | cons v vs ihv =>
          intro hv
          rw [List.map_cons, encodeString_of_valid v (hv v (List.mem_cons_self v vs)),
            ihv (fun u hu => hv u (List.mem_cons_of_mem v hu))]
      exact this kv.2 hkv.2
    rw [List.map_cons, encodeString_of_valid kv.1 hkv.1, hvals,
      ih (fun kv' hkv' => hvalid kv' (List.mem_cons_of_mem kv hkv'))]

/-- A key that a lookup finds is an entry of the association list. -/
theorem mem_of_lookup_eq_some {α β : Type} [BEq α] [LawfulBEq α] (l : List (α × β)) (a : α)
    (b : β) (h : l.lookup a = some b) : (a, b) ∈ l := by
  induction l with
  | nil => simp [List.lookup] at h
  | cons kv rest ih =>
    obtain ⟨k, v⟩ := kv
    by_cases hk : a = k
    · subst hk
      simp [List.lookup] at h
      subst h
      exact List.mem_cons_self _ _
    · have hbeq : (a == k) = false := by simpa using hk
      simp only [List.lookup, hbeq] at h
      exact List.mem_cons_of_mem _ (ih h)

end StringEncoder

/-! ## The failure-injection handler -/

section RandomError

open HTTP GoDemoWeb

/-- The handler on a chance string that parses: the trial and the encoding, spelled out. -/
theorem handleRandomError_parsed (ParseFloat : Strconv.FloatParser) (point c : Float64)
    (now : Int) (req : Request) (hparse : ParseFloat (chanceValue req) = .ok c) :
    (handleRandomError ParseFloat point now {} req).response =
      match JSON.encodeFloat c, JSON.encodeFloat point with
      | .ok jc, .ok jp =>
        if c.gt point then
          (500, [[("now", .int now), ("chance", jc), ("point", jp),
            ("message", .str (ascii "Random failure!"))]])
        else
          (200, [[("now", .int now), ("chance", jc), ("point", jp), ("message", .str (ascii "Success!"))]])
      | _, _ => (503, []) := by
  unfold chanceValue at hparse
  simp only [handleRandomError, hparse]
  cases c with
  | finite qc =>
    cases point with
    | finite qp =>
      by_cases h : qp < qc <;>
        simp [h, Float64.gt, handleRandomErrorResponse.Marshal, JSON.encodeFloat,
          encodeString_failure, encodeString_success,
          ResponseWriter.response, ResponseWriter.statusCode, ResponseWriter.WriteHeader,
          ResponseWriter.Write, StatusOK, StatusInternalServerError]
    | _ =>
      simp [Float64.gt, handleRandomErrorResponse.Marshal, JSON.encodeFloat,
        ResponseWriter.response, ResponseWriter.statusCode, ResponseWriter.WriteHeader,
        StatusOK, StatusServiceUnavailable]
  | _ =>
    cases point <;>
      simp [Float64.gt, handleRandomErrorResponse.Marshal, JSON.encodeFloat,
        ResponseWriter.response, ResponseWriter.statusCode, ResponseWriter.WriteHeader,
        StatusOK, StatusServiceUnavailable]

/-- The handler on a chance string that does not parse: 422 and nothing written. -/
theorem handleRandomError_unparsed (ParseFloat : Strconv.FloatParser) (point : Float64)
    (now : Int) (req : Request) (e : Strconv.NumError)
    (herr : ParseFloat (chanceValue req) = .error e) :
    (handleRandomError ParseFloat point now {} req).response = (422, []) := by
  unfold chanceValue at herr
  simp only [handleRandomError, herr]
  simp [ResponseWriter.response, ResponseWriter.statusCode,
    ResponseWriter.WriteHeader, StatusUnprocessableEntity]

/-- The status code is the first component of the response. -/
theorem statusCode_eq_response_fst (w : ResponseWriter) : w.statusCode = w.response.1 := rfl

/-- The body is the second component of the response. -/
theorem body_eq_response_snd (w : ResponseWriter) : w.body = w.response.2 := rfl

/-- C1 (amended): for every chance value that parses to a finite float c and every drawn
sample p (any finite value, so every p in [0,1)), the response has status 500 and message
"Random failure!" exactly when c > p, and status 200 and message "Success!" otherwise, the body carrying chance = c and
point = p in both cases; for c in [0,1] the samples in [0,1) that produce a 500 are exactly
[0, c).  A chance value that parses to NaN or to an infinity gives 503 with an empty body,
whatever the sample. -/
theorem C1_decision_rule_finite_chance (ParseFloat : Strconv.FloatParser) (now : Int)
    (req : Request) (c : Float64) (p : ℚ)
    (hparse : ParseFloat (chanceValue req) = .ok c) :
    (∀ qc, c = .finite qc →
      ((handleRandomError ParseFloat (.finite p) now {} req).response =
        if qc > p then
          (500, [[("now", .int now), ("chance", .num qc), ("point", .num p),
            ("message", .str (ascii "Random failure!"))]])
        else
          (200, [[("now", .int now), ("chance", .num qc), ("point", .num p),
            ("message", .str (ascii "Success!"))]])) ∧
      ((handleRandomError ParseFloat (.finite p) now {} req).statusCode = 500 ↔ qc > p) ∧
      ((handleRandomError ParseFloat (.finite p) now {} req).statusCode = 200 ↔ ¬ qc > p) ∧
      (0 ≤ qc → qc ≤ 1 →
        {x : ℚ | 0 ≤ x ∧ x < 1 ∧
          (handleRandomError ParseFloat (.finite x) now {} req).statusCode = 500} = Set.Ico 0 qc)) ∧
    (c.isFinite = false →
      (handleRandomError ParseFloat (.finite p) now {} req).response = (503, [])) := by
  refine ⟨?_, ?_⟩
  · intro qc hc
    subst hc
    have key : ∀ x : ℚ, (handleRandomError ParseFloat (.finite x) now {} req).response =
        if qc > x then
          (500, [[("now", .int now), ("chance", .num qc), ("point", .num x),
            ("message", .str (ascii "Random failure!"))]])
        else
          (200, [[("now", .int now), ("chance", .num qc), ("point", .num x),
            ("message", .str (ascii "Success!"))]]) := by
      intro x
      rw [handleRandomError_parsed ParseFloat (.finite x) (.finite qc) now req hparse]
      simp [JSON.encodeFloat, Float64.gt]
    have status : ∀ x : ℚ,
        (handleRandomError ParseFloat (.finite x) now {} req).statusCode = 500 ↔ qc > x := by
      intro x
      rw [statusCode_eq_response_fst, key x]
      by_cases h : qc > x <;> simp [h]
    refine ⟨key p, status p, ?_, ?_⟩
    · rw [statusCode_eq_response_fst, key p]
      by_cases h : qc > p <;> simp [h]
    · intro _ hc1
      ext x
      simp only [Set.mem_setOf_eq, Set.mem_Ico, status x]
      constructor
      · rintro ⟨h0, _, h⟩
        exact ⟨h0, h⟩
      · rintro ⟨h0, h⟩
        exact ⟨h0, lt_of_lt_of_le h hc1, h⟩
  · intro hfin
    rw [handleRandomError_parsed ParseFloat (.finite p) c now req hparse]
    cases c <;> simp_all [JSON.encodeFloat, Float64.isFinite]

/-- C1, an instance: chance=0.5 and the sample 0.25 give 500 "Random failure!". -/
theorem C1_decision_rule_witness :
    Strconv.parseFloatTable (chanceValue (Examples.getRandomResult (some "0.5")))
        = .ok (.finite (mkRat 1 2)) ∧
      (0 : ℚ) ≤ mkRat 1 4 ∧ mkRat 1 4 < (1 : ℚ) ∧
      (handleRandomError Strconv.parseFloatTable (.finite (mkRat 1 4)) 7 {}
          (Examples.getRandomResult (some "0.5"))).statusCode = 500 :=
  ⟨by decide, by decide, by decide,
    (((C1_decision_rule_finite_chance Strconv.parseFloatTable 7
      (Examples.getRandomResult (some "0.5")) (.finite (mkRat 1 2)) (mkRat 1 4)
      (by decide)).1 (mkRat 1 2) rfl).2.1).2 (by decide)⟩

/-- C1 as stated fails: chance=Inf parses to +Inf, which is greater than the sample 0.5, yet
the response is 503 with an empty body, not 500 "Random failure!". -/
theorem C1_counterexample_infinite_chance :
    Strconv.parseFloatTable (chanceValue (Examples.getRandomResult (some "Inf"))) = .ok .posInf ∧
      Float64.inUnitInterval (.finite (mkRat 1 2)) = true ∧
      Float64.gt .posInf (.finite (mkRat 1 2)) = true ∧
      (handleRandomError Strconv.parseFloatTable (.finite (mkRat 1 2)) 7 {}
          (Examples.getRandomResult (some "Inf"))).response = (503, []) := by
  decide

/-- C2 (amended): for every request whose chance parameter value is a non-empty string that
does not parse as a floating-point number, and for every random sample, the response status
is 422 and the body is empty. -/
theorem C2_unparseable_nonempty_chance (ParseFloat : Strconv.FloatParser) (point : Float64)
    (now : Int) (req : Request) (e : Strconv.NumError)
    (hne : req.FormValue (ascii "chance") ≠ ascii "")
    (herr : ParseFloat (req.FormValue (ascii "chance")) = .error e) :
    (handleRandomError ParseFloat point now {} req).statusCode = 422 ∧
      (handleRandomError ParseFloat point now {} req).body = [] := by
  have hval : chanceValue req = req.FormValue (ascii "chance") := by
    simp [chanceValue, hne]
  have h := handleRandomError_unparsed ParseFloat point now req e (by rw [hval]; exact herr)
  rw [statusCode_eq_response_fst, body_eq_response_snd, h]
  exact ⟨rfl, rfl⟩

/-- C2, an instance: chance=abc gives 422 with an empty body. -/
theorem C2_unparseable_witness :
    (Examples.getRandomResult (some "abc")).FormValue (ascii "chance") ≠ ascii "" ∧
      Strconv.parseFloatTable ((Examples.getRandomResult (some "abc")).FormValue (ascii "chance"))
        = .error .ErrSyntax ∧
      (handleRandomError Strconv.parseFloatTable (.finite (mkRat 1 2)) 7 {}
          (Examples.getRandomResult (some "abc"))).statusCode = 422 ∧
      (handleRandomError Strconv.parseFloatTable (.finite (mkRat 1 2)) 7 {}
          (Examples.getRandomResult (some "abc"))).body = [] :=
  ⟨by decide, by decide,
    C2_unparseable_nonempty_chance Strconv.parseFloatTable (.finite (mkRat 1 2)) 7
      (Examples.getRandomResult (some "abc")) .ErrSyntax (by decide) (by decide)⟩

/-- C2 as stated fails: the request `/randomResult?chance=` carries the chance value "", a
string that does not parse as a float, yet the handler falls back to 0.25 and answers 200
with a JSON body (sample 0.5), not 422. -/
theorem C2_counterexample_empty_chance :
    (Examples.getRandomResult (some "")).Form.lookup (ascii "chance") = some [ascii ""] ∧
      Strconv.parseFloatTable (ascii "") = .error .ErrSyntax ∧
      (handleRandomError Strconv.parseFloatTable (.finite (mkRat 1 2)) 7 {}
          (Examples.getRandomResult (some ""))).response =
        (200, [[("now", .int 7), ("chance", .num (mkRat 1 4)), ("point", .num (mkRat 1 2)),
          ("message", .str (ascii "Success!"))]]) := by
  decide

/-- C3: a request with no chance parameter gets the same response as a request with
chance=0.25, for every sample and timestamp: the same status code, the same body, the same
writer state; and when the sample is in [0,1) the body of both carries chance = 0.25
(0.25 being what the parser returns on the string 0.25). -/
theorem C3_absent_chance_is_quarter (ParseFloat : Strconv.FloatParser) (point : Float64)
    (now : Int) (req req25 : Request)
    (habsent : req.Form.lookup (ascii "chance") = none)
    (h25 : req25.Form.lookup (ascii "chance") = some [ascii "0.25"]) :
    handleRandomError ParseFloat point now {} req
        = handleRandomError ParseFloat point now {} req25 ∧
      (handleRandomError ParseFloat point now {} req).statusCode
        = (handleRandomError ParseFloat point now {} req25).statusCode ∧
      (handleRandomError ParseFloat point now {} req).body
        = (handleRandomError ParseFloat point now {} req25).body ∧
      (ParseFloat (ascii "0.25") = .ok (.finite (1 / 4)) →
        ∀ p : ℚ, point = .finite p → 0 ≤ p → p < 1 →
          ∃ message,
            (handleRandomError ParseFloat point now {} req).body =
              [[("now", .int now), ("chance", .num (1 / 4)), ("point", .num p),
                ("message", .str message)]] ∧
            (handleRandomError ParseFloat point now {} req25).body =
              [[("now", .int now), ("chance", .num (1 / 4)), ("point", .num p),
                ("message", .str message)]]) := by
  have hv : req.FormValue (ascii "chance") = ascii "" := by simp [Request.FormValue, habsent]
  have hv25 : req25.FormValue (ascii "chance") = ascii "0.25" := by
    simp [Request.FormValue, h25]
  have hne25 : (ascii "0.25" == ascii "") = false := by decide
  have hc : chanceValue req = ascii "0.25" := by simp [chanceValue, hv]
  have hc25 : chanceValue req25 = ascii "0.25" := by simp [chanceValue, hv25, hne25]
  have heq : handleRandomError ParseFloat point now {} req
      = handleRandomError ParseFloat point now {} req25 := by
    simp only [handleRandomError, hv, hv25]
    rfl
  refine ⟨heq, by rw [heq], by rw [heq], ?_⟩
  intro hparse p hp _ _
  subst hp
  rw [← heq, body_eq_response_snd,
    handleRandomError_parsed ParseFloat (.finite p) (.finite (1 / 4)) now req
      (by rw [hc]; exact hparse)]
  simp only [JSON.encodeFloat, Float64.gt, decide_eq_true_eq]
  split_ifs with h
  · exact ⟨ascii "Random failure!", rfl, rfl⟩
  · exact ⟨ascii "Success!", rfl, rfl⟩

/-- C3, an instance: `/randomResult` and `/randomResult?chance=0.25` get the same response. -/
theorem C3_absent_chance_witness :
    (Examples.getRandomResult none).Form.lookup (ascii "chance") = none ∧
      (Examples.getRandomResult (some "0.25")).Form.lookup (ascii "chance") = some [ascii "0.25"] ∧
      handleRandomError Strconv.parseFloatTable (.finite (mkRat 1 2)) 7 {}
          (Examples.getRandomResult none)
        = handleRandomError Strconv.parseFloatTable (.finite (mkRat 1 2)) 7 {}
          (Examples.getRandomResult (some "0.25")) ∧
      Strconv.parseFloatTable (ascii "0.25") = .ok (.finite (1 / 4)) ∧
      ∃ message,
        (handleRandomError Strconv.parseFloatTable (.finite (mkRat 1 2)) 7 {}
            (Examples.getRandomResult none)).body =
          [[("now", .int 7), ("chance", .num (1 / 4)), ("point", .num (mkRat 1 2)),
            ("message", .str message)]] ∧
        (handleRandomError Strconv.parseFloatTable (.finite (mkRat 1 2)) 7 {}
            (Examples.getRandomResult (some "0.25"))).body =
          [[("now", .int 7), ("chance", .num (1 / 4)), ("point", .num (mkRat 1 2)),
            ("message", .str message)]] :=
  have hquarter : Strconv.parseFloatTable (ascii "0.25") = .ok (.finite (1 / 4)) := by
    have h : Strconv.parseFloatTable (ascii "0.25") = .ok (.finite (mkRat 1 4)) := by decide
    rw [h, Rat.mkRat_eq_div]
    norm_num
  ⟨by decide, by decide,
    (C3_absent_chance_is_quarter Strconv.parseFloatTable (.finite (mkRat 1 2)) 7
      (Examples.getRandomResult none) (Examples.getRandomResult (some "0.25"))
      (by decide) (by decide)).1,
    hquarter,
    (C3_absent_chance_is_quarter Strconv.parseFloatTable (.finite (mkRat 1 2)) 7
      (Examples.getRandomResult none) (Examples.getRandomResult (some "0.25"))
      (by decide) (by decide)).2.2.2 hquarter (mkRat 1 2) rfl (by decide) (by decide)⟩

/-- C4: with a chance value that parses to 0 (such as chance=0) the handler always succeeds:
for every sample in [0,1) the response is 200 with message "Success!". -/
theorem C4_chance_zero_always_succeeds (ParseFloat : Strconv.FloatParser) (now : Int)
    (req : Request) (p : ℚ)
    (hparse : ParseFloat (chanceValue req) = .ok (.finite 0)) (hp0 : 0 ≤ p) (_hp1 : p < 1) :
    (handleRandomError ParseFloat (.finite p) now {} req).statusCode = 200 ∧
      (handleRandomError ParseFloat (.finite p) now {} req).body =
        [[("now", .int now), ("chance", .num 0), ("point", .num p),
          ("message", .str (ascii "Success!"))]] := by
  rw [statusCode_eq_response_fst, body_eq_response_snd,
    handleRandomError_parsed ParseFloat (.finite p) (.finite 0) now req hparse]
  simp [JSON.encodeFloat, Float64.gt, not_lt.mpr hp0]

/-- C4, an instance: chance=0 and the sample 0 give 200 "Success!". -/
theorem C4_chance_zero_witness :
    Strconv.parseFloatTable (chanceValue (Examples.getRandomResult (some "0")))
        = .ok (.finite 0) ∧
      (0 : ℚ) ≤ 0 ∧ (0 : ℚ) < 1 ∧
      (handleRandomError Strconv.parseFloatTable (.finite 0) 7 {}
          (Examples.getRandomResult (some "0"))).statusCode = 200 ∧
      (handleRandomError Strconv.parseFloatTable (.finite 0) 7 {}
          (Examples.getRandomResult (some "0"))).body =
        [[("now", .int 7), ("chance", .num 0), ("point", .num 0),
          ("message", .str (ascii "Success!"))]] :=
  ⟨by decide, by decide, by decide,
    C4_chance_zero_always_succeeds Strconv.parseFloatTable 7
      (Examples.getRandomResult (some "0")) 0 (by decide) (by decide) (by decide)⟩

/-- C7 (amended): the only validation of chance is whether it parses.  For every chance value
that parses as a float the response is never 422.  When the parsed value c is finite, below
0 and above 1 included, the response for a sample in [0,1) is the 200/500 trial outcome
with a JSON body carrying c and the sample; every finite c <= 0 yields 200 and every finite
c >= 1 yields 500 for every such sample.  When the parsed value is NaN or an infinity the
response is 503 with an empty body. -/
theorem C7_parsed_chance_accepted (ParseFloat : Strconv.FloatParser) (now : Int)
    (req : Request) (c point : Float64)
    (hparse : ParseFloat (chanceValue req) = .ok c) :
    (handleRandomError ParseFloat point now {} req).statusCode ≠ 422 ∧
      (∀ qc p : ℚ, c = .finite qc → point = .finite p → 0 ≤ p → p < 1 →
        ((handleRandomError ParseFloat point now {} req).statusCode = 200 ∨
          (handleRandomError ParseFloat point now {} req).statusCode = 500) ∧
        (∃ message,
          (handleRandomError ParseFloat point now {} req).body =
            [[("now", .int now), ("chance", .num qc), ("point", .num p),
              ("message", .str message)]]) ∧
        (qc ≤ 0 → (handleRandomError ParseFloat point now {} req).statusCode = 200) ∧
        (1 ≤ qc → (handleRandomError ParseFloat point now {} req).statusCode = 500)) ∧
      (c.isFinite = false →
        (handleRandomError ParseFloat point now {} req).response = (503, [])) := by
  have h := handleRandomError_parsed ParseFloat point c now req hparse
  refine ⟨?_, ?_, ?_⟩
  · rw [statusCode_eq_response_fst, h]
    cases c <;> cases point <;> simp [JSON.encodeFloat]
    split_ifs <;> simp
  · intro qc p hc hpt hp0 hp1
    subst hc hpt
    rw [statusCode_eq_response_fst, body_eq_response_snd, h]
    simp only [JSON.encodeFloat, Float64.gt, decide_eq_true_eq]
    by_cases hlt : p < qc
    · rw [if_pos hlt]
      refine ⟨Or.inr rfl, ⟨ascii "Random failure!", rfl⟩, ?_, fun _ => rfl⟩
      intro hle
      exact absurd (lt_of_le_of_lt hp0 hlt) (not_lt.mpr hle)
    · rw [if_neg hlt]
      refine ⟨Or.inl rfl, ⟨ascii "Success!", rfl⟩, fun _ => rfl, ?_⟩
      intro hge
      exact absurd (lt_of_lt_of_le hp1 hge) hlt
  · intro hfin
    rw [h]
    cases c <;> simp_all [JSON.encodeFloat, Float64.isFinite]

/-- C7, instances: chance=2 with the sample 0.5 gives 500, chance=-1 with the same sample
gives 200, and neither is 422. -/
theorem C7_parsed_chance_witness :
    Strconv.parseFloatTable (chanceValue (Examples.getRandomResult (some "2")))
        = .ok (.finite 2) ∧
      Strconv.parseFloatTable (chanceValue (Examples.getRandomResult (some "-1")))
        = .ok (.finite (-1)) ∧
      (handleRandomError Strconv.parseFloatTable (.finite (mkRat 1 2)) 7 {}
          (Examples.getRandomResult (some "2"))).statusCode = 500 ∧
      (handleRandomError Strconv.parseFloatTable (.finite (mkRat 1 2)) 7 {}
          (Examples.getRandomResult (some "-1"))).statusCode = 200 ∧
      (handleRandomError Strconv.parseFloatTable (.finite (mkRat 1 2)) 7 {}
          (Examples.getRandomResult (some "2"))).statusCode ≠ 422 :=
  ⟨by decide, by decide,
    ((C7_parsed_chance_accepted Strconv.parseFloatTable 7 (Examples.getRandomResult (some "2"))
      (.finite 2) (.finite (mkRat 1 2)) (by decide)).2.1 2 (mkRat 1 2) rfl rfl
        (by decide) (by decide)).2.2.2 (by decide),
    ((C7_parsed_chance_accepted Strconv.parseFloatTable 7 (Examples.getRandomResult (some "-1"))
      (.finite (-1)) (.finite (mkRat 1 2)) (by decide)).2.1 (-1) (mkRat 1 2) rfl rfl
        (by decide) (by decide)).2.2.1 (by decide),
    (C7_parsed_chance_accepted Strconv.parseFloatTable 7 (Examples.getRandomResult (some "2"))
      (.finite 2) (.finite (mkRat 1 2)) (by decide)).1⟩

/-- C7 as stated fails: chance=-Inf parses (to -Inf, a value below 0, so the trial cannot
fail), and the request is not refused with 422, yet the response is 503 with an empty body,
not the 200 outcome with a JSON body. -/
theorem C7_counterexample_negative_infinity :
    Strconv.parseFloatTable (chanceValue (Examples.getRandomResult (some "-Inf")))
        = .ok .negInf ∧
      Float64.gt (.finite 0) .negInf = true ∧
      Float64.inUnitInterval (.finite (mkRat 1 2)) = true ∧
      Float64.gt .negInf (.finite (mkRat 1 2)) = false ∧
      (handleRandomError Strconv.parseFloatTable (.finite (mkRat 1 2)) 7 {}
          (Examples.getRandomResult (some "-Inf"))).response = (503, []) := by
  decide

/-- C8 (amended): with a chance value that parses to 1 (such as chance=1) the handler always
fails: for every sample p in [0,1), the sample p = 0 included, the response is 500 with
message "Random failure!". -/
theorem C8_chance_one_always_fails (ParseFloat : Strconv.FloatParser) (now : Int)
    (req : Request) (p : ℚ)
    (hparse : ParseFloat (chanceValue req) = .ok (.finite 1)) (_hp0 : 0 ≤ p) (hp1 : p < 1) :
    (handleRandomError ParseFloat (.finite p) now {} req).statusCode = 500 ∧
      (handleRandomError ParseFloat (.finite p) now {} req).body =
        [[("now", .int now), ("chance", .num 1), ("point", .num p),
          ("message", .str (ascii "Random failure!"))]] := by
  rw [statusCode_eq_response_fst, body_eq_response_snd,
    handleRandomError_parsed ParseFloat (.finite p) (.finite 1) now req hparse]
  simp [JSON.encodeFloat, Float64.gt, hp1]

/-- C8, an instance: chance=1 and the sample 0.5 give 500 "Random failure!". -/
theorem C8_chance_one_witness :
    Strconv.parseFloatTable (chanceValue (Examples.getRandomResult (some "1")))
        = .ok (.finite 1) ∧
      (0 : ℚ) ≤ mkRat 1 2 ∧ mkRat 1 2 < (1 : ℚ) ∧
      (handleRandomError Strconv.parseFloatTable (.finite (mkRat 1 2)) 7 {}
          (Examples.getRandomResult (some "1"))).statusCode = 500 ∧
      (handleRandomError Strconv.parseFloatTable (.finite (mkRat 1 2)) 7 {}
          (Examples.getRandomResult (some "1"))).body =
        [[("now", .int 7), ("chance", .num 1), ("point", .num (mkRat 1 2)),
          ("message", .str (ascii "Random failure!"))]] :=
  ⟨by decide, by decide, by decide,
    C8_chance_one_always_fails Strconv.parseFloatTable 7
      (Examples.getRandomResult (some "1")) (mkRat 1 2) (by decide) (by decide) (by decide)⟩

/-- C8 as stated fails: with chance=1 the sample p = 0 is a failure like every other sample
(1 > 0), so it is not a case in which the response is not a failure. -/
theorem C8_counterexample_sample_zero :
    Strconv.parseFloatTable (chanceValue (Examples.getRandomResult (some "1")))
        = .ok (.finite 1) ∧
      Float64.inUnitInterval (.finite 0) = true ∧
      (handleRandomError Strconv.parseFloatTable (.finite 0) 7 {}
          (Examples.getRandomResult (some "1"))).response =
        (500, [[("now", .int 7), ("chance", .num 1), ("point", .num 0),
          ("message", .str (ascii "Random failure!"))]]) := by
  decide

end RandomError

/-! ## Build identification and the echo handler -/

section Echo

open HTTP

/-- The function `getEnvar` of go-demo-web: the value when set, the default when unset. -/
theorem demoWeb_getEnvar_eq (env : OS.Environ) (name d : GoString) :
    GoDemoWeb.getEnvar env name d = (env.lookup name).getD d := by
  unfold GoDemoWeb.getEnvar OS.LookupEnv
  cases env.lookup name <;> rfl

/-- The function `getEnvar` of go-web-server: the value when set, the default when unset. -/
theorem webServer_getEnvar_eq (env : OS.Environ) (name d : GoString) :
    GoWebServer.getEnvar env name d = (env.lookup name).getD d := by
  unfold GoWebServer.getEnvar OS.LookupEnv
  cases env.lookup name <;> rfl

/-- The members of an encoded `rootResponse` of go-demo-web, by name. -/
theorem demoWeb_rootResponse_Marshal_members (now : Int) (uri : GoString) (headers : JSON.Header)
    (hostname hash branch : GoString) :
    ∃ j,
      GoDemoWeb.rootResponse.Marshal
        { Now := now, URI := uri, Headers := headers, Hostname := hostname, GitHash := hash,
          GitBranch := branch } = .ok j ∧
      j.lookup "now" = (if now = 0 then none else some (.int now)) ∧
      j.lookup "uri" = (if uri = ascii "" then none else some (.str (JSON.encodeString uri))) ∧
      j.lookup "headers" = (if headers = [] then none else some (JSON.encodeHeader headers)) ∧
      j.lookup "hostname" =
        (if hostname = ascii "" then none else some (.str (JSON.encodeString hostname))) ∧
      j.lookup "git_hash" =
        (if hash = ascii "" then none else some (.str (JSON.encodeString hash))) ∧
      j.lookup "git_branch" =
        (if branch = ascii "" then none else some (.str (JSON.encodeString branch))) := by
  refine ⟨_, rfl, ?_⟩
  simp only [JSON.omitempty, beq_iff_eq, List.isEmpty_eq_true, ascii_empty]
  refine ⟨?_, ?_, ?_, ?_, ?_, ?_⟩ <;> split_ifs <;> simp [List.lookup]

/-- The echo handler of go-demo-web answers 200 with the encoding of the `rootResponse` it
builds. -/
theorem demoWeb_handleRoot_response (env : OS.Environ) (hostname : GoString) (now : Int)
    (req : Request) (j : JSON.Object)
    (hj : GoDemoWeb.rootResponse.Marshal
      { Now := now, URI := req.RequestURI, Headers := req.Header, Hostname := hostname,
        GitHash := GoDemoWeb.gitHash env, GitBranch := GoDemoWeb.gitBranch env } = .ok j) :
    (GoDemoWeb.handleRoot env hostname now {} req).response = (200, [j]) := by
  simp only [GoDemoWeb.handleRoot, hj]
  rfl

/-- The members of an encoded `rootResponse` of go-web-server, by name. -/
theorem webServer_rootResponse_Marshal_members (now : Int) (uri : GoString) (headers : JSON.Header)
    (hostname hash branch : GoString) :
    ∃ j,
      GoWebServer.rootResponse.Marshal
        { Now := now, URI := uri, Headers := headers, Hostname := hostname, GitHash := hash,
          GitBranch := branch } = .ok j ∧
      j.lookup "now" = (if now = 0 then none else some (.int now)) ∧
      j.lookup "uri" = (if uri = ascii "" then none else some (.str (JSON.encodeString uri))) ∧
      j.lookup "headers" = (if headers = [] then none else some (JSON.encodeHeader headers)) ∧
      j.lookup "hostname" =
        (if hostname = ascii "" then none else some (.str (JSON.encodeString hostname))) ∧
      j.lookup "git_hash" =
        (if hash = ascii "" then none else some (.str (JSON.encodeString hash))) ∧
      j.lookup "git_branch" =
        (if branch = ascii "" then none else some (.str (JSON.encodeString branch))) := by
  refine ⟨_, rfl, ?_⟩
  simp only [JSON.omitempty, beq_iff_eq, List.isEmpty_eq_true, ascii_empty]
  refine ⟨?_, ?_, ?_, ?_, ?_, ?_⟩ <;> split_ifs <;> simp [List.lookup]

/-- The echo handler of go-web-server answers 200 with the encoding of the `rootResponse` it
builds. -/
theorem webServer_handleRoot_response (env : OS.Environ) (hostname : GoString) (now : Int)
    (req : Request) (j : JSON.Object)
    (hj : GoWebServer.rootResponse.Marshal
      { Now := now, URI := req.RequestURI, Headers := req.Header, Hostname := hostname,
        GitHash := GoWebServer.gitHash env, GitBranch := GoWebServer.gitBranch env } = .ok j) :
    (GoWebServer.handleRoot env hostname now {} req).1.response = (200, [j]) := by
  simp only [GoWebServer.handleRoot, hj]
  rfl

/-- Every entry of the header map is in the headers member, its key and values encoded. -/
theorem headers_member_entries (j : JSON.Object) (hdr : JSON.Header)
    (hj : j.lookup "headers" = (if hdr = [] then none else some (JSON.encodeHeader hdr))) :
    ∀ key values, hdr.lookup key = some values →
      ∃ h, j.lookup "headers" = some (.headers h) ∧
        (JSON.encodeString key, values.map JSON.encodeString) ∈ h := by
  intro key values hkey
  have hmem := mem_of_lookup_eq_some hdr key values hkey
  have hne : hdr ≠ [] := by
    intro hnil
    rw [hnil] at hmem
    exact absurd hmem (List.not_mem_nil _)
  refine ⟨hdr.map (fun kv => (JSON.encodeString kv.1, kv.2.map JSON.encodeString)), ?_, ?_⟩
  · rw [hj, if_neg hne]
    rfl
  · exact List.mem_map_of_mem (fun kv => (JSON.encodeString kv.1, kv.2.map JSON.encodeString))
      hmem

/-- With a header map of valid UTF-8 strings, the headers member is the header map. -/
theorem headers_member_lookup (j : JSON.Object) (hdr : JSON.Header)
    (hj : j.lookup "headers" = (if hdr = [] then none else some (JSON.encodeHeader hdr))) :
    (∀ kv ∈ hdr, UTF8.ValidString kv.1 = true ∧ ∀ v ∈ kv.2, UTF8.ValidString v = true) →
      ∀ key values, hdr.lookup key = some values →
        ∃ h, j.lookup "headers" = some (.headers h) ∧ h.lookup key = some values := by
  intro hvalid key values hkey
  have hne : hdr ≠ [] := by
    intro hnil
    rw [hnil] at hkey
    exact absurd hkey (by simp [List.lookup])
  exact ⟨hdr, by rw [hj, if_neg hne, encodeHeader_of_valid hdr hvalid], hkey⟩

/-- C5 (amended): the echo handler, in both variants, answers every request, with any
request-target and any header map, with status 200 and one JSON object.  Every string of
the object is written by the JSON string encoder, which keeps valid UTF-8 and replaces each
byte that is not valid UTF-8 by U+FFFD, and every member whose value is empty is left out.
The uri member is the encoded request-target, so it is the exact request-target string
whenever that is valid UTF-8, and it is present when the request-target is non-empty.  The
headers member is the encoded header map of the request: it holds every key of the map with
all of its values in their original order, encoded, so unchanged when they are valid UTF-8,
and it is present when the map is non-empty.  The hostname, git_hash and git_branch members
are the encoded host name and build-identification strings, each present when non-empty. -/
theorem C5_echo_members (env : OS.Environ) (hostname : GoString) (now : Int) (req : Request) :
    (∃ j,
      (GoDemoWeb.handleRoot env hostname now {} req).response = (200, [j]) ∧
      j.lookup "uri" = (if req.RequestURI = ascii "" then none
        else some (.str (JSON.encodeString req.RequestURI))) ∧
      (UTF8.ValidString req.RequestURI = true → req.RequestURI ≠ ascii "" →
        j.lookup "uri" = some (.str req.RequestURI)) ∧
      j.lookup "headers" = (if req.Header = [] then none
        else some (JSON.encodeHeader req.Header)) ∧
      (∀ key values, req.Header.lookup key = some values →
        ∃ h, j.lookup "headers" = some (.headers h) ∧
          (JSON.encodeString key, values.map JSON.encodeString) ∈ h) ∧
      ((∀ kv ∈ req.Header,
          UTF8.ValidString kv.1 = true ∧ ∀ v ∈ kv.2, UTF8.ValidString v = true) →
        ∀ key values, req.Header.lookup key = some values →
          ∃ h, j.lookup "headers" = some (.headers h) ∧ h.lookup key = some values) ∧
      j.lookup "hostname" = (if hostname = ascii "" then none
        else some (.str (JSON.encodeString hostname))) ∧
      j.lookup "git_hash" = (if GoDemoWeb.gitHash env = ascii "" then none
        else some (.str (JSON.encodeString (GoDemoWeb.gitHash env)))) ∧
      j.lookup "git_branch" = (if GoDemoWeb.gitBranch env = ascii "" then none
        else some (.str (JSON.encodeString (GoDemoWeb.gitBranch env))))) ∧
    (∃ j,
      (GoWebServer.handleRoot env hostname now {} req).1.response = (200, [j]) ∧
      j.lookup "uri" = (if req.RequestURI = ascii "" then none
        else some (.str (JSON.encodeString req.RequestURI))) ∧
      (UTF8.ValidString req.RequestURI = true → req.RequestURI ≠ ascii "" →
        j.lookup "uri" = some (.str req.RequestURI)) ∧
      j.lookup "headers" = (if req.Header = [] then none
        else some (JSON.encodeHeader req.Header)) ∧
      (∀ key values, req.Header.lookup key = some values →
        ∃ h, j.lookup "headers" = some (.headers h) ∧
          (JSON.encodeString key, values.map JSON.encodeString) ∈ h) ∧
      ((∀ kv ∈ req.Header,
          UTF8.ValidString kv.1 = true ∧ ∀ v ∈ kv.2, UTF8.ValidString v = true) →
        ∀ key values, req.Header.lookup key = some values →
          ∃ h, j.lookup "headers" = some (.headers h) ∧ h.lookup key = some values) ∧
      j.lookup "hostname" = (if hostname = ascii "" then none
        else some (.str (JSON.encodeString hostname))) ∧
      j.lookup "git_hash" = (if GoWebServer.gitHash env = ascii "" then none
        else some (.str (JSON.encodeString (GoWebServer.gitHash env)))) ∧
      j.lookup "git_branch" = (if GoWebServer.gitBranch env = ascii "" then none
        else some (.str (JSON.encodeString (GoWebServer.gitBranch env))))) := by
  constructor
  · obtain ⟨j, hj, -, huri, hheaders, hhost, hhash, hbranch⟩ :=
      demoWeb_rootResponse_Marshal_members now req.RequestURI req.Header hostname
        (GoDemoWeb.gitHash env) (GoDemoWeb.gitBranch env)
    refine ⟨j, demoWeb_handleRoot_response env hostname now req j hj, huri, ?_, hheaders,
      headers_member_entries j req.Header hheaders,
      headers_member_lookup j req.Header hheaders, hhost, hhash, hbranch⟩
    intro hvalid hne
    rw [huri, if_neg hne, encodeString_of_valid _ hvalid]
  · obtain ⟨j, hj, -, huri, hheaders, hhost, hhash, hbranch⟩ :=
      webServer_rootResponse_Marshal_members now req.RequestURI req.Header hostname
        (GoWebServer.gitHash env) (GoWebServer.gitBranch env)
    refine ⟨j, webServer_handleRoot_response env hostname now req j hj, huri, ?_, hheaders,
      headers_member_entries j req.Header hheaders,
      headers_member_lookup j req.Header hheaders, hhost, hhash, hbranch⟩
    intro hvalid hne
    rw [huri, if_neg hne, encodeString_of_valid _ hvalid]

/-- C5, the example of the specification: `GET /foo/bar` with `X-Test: 1` is answered 200
with uri "/foo/bar" and the header X-Test with the values ["1"]. -/
theorem C5_echo_example :
    (GoDemoWeb.handleRoot [] (ascii "web-0") 7 {} Examples.getFooBar).response =
        (200, [[("now", .int 7), ("uri", .str (ascii "/foo/bar")),
          ("headers", .headers [(ascii "X-Test", [ascii "1"])]),
          ("hostname", .str (ascii "web-0")),
          ("git_hash", .str (ascii "dev")), ("git_branch", .str (ascii "dev"))]]) ∧
      (GoWebServer.handleRoot [] (ascii "web-0") 7 {} Examples.getFooBar).1.response =
        (200, [[("now", .int 7), ("uri", .str (ascii "/foo/bar")),
          ("headers", .headers [(ascii "X-Test", [ascii "1"])]),
          ("hostname", .str (ascii "web-0")),
          ("git_hash", .str (ascii "dev")), ("git_branch", .str (ascii "dev"))]]) := by
  decide

/-- C5, an instance: for `GET /foo/bar` with `X-Test: 1`, a request of valid UTF-8 strings,
the uri member is the request-target and the headers member maps X-Test to ["1"]. -/
theorem C5_echo_witness :
    UTF8.ValidString Examples.getFooBar.RequestURI = true ∧
      Examples.getFooBar.RequestURI ≠ ascii "" ∧
      (∀ kv ∈ Examples.getFooBar.Header,
        UTF8.ValidString kv.1 = true ∧ ∀ v ∈ kv.2, UTF8.ValidString v = true) ∧
      List.lookup (ascii "X-Test") Examples.getFooBar.Header = some [ascii "1"] ∧
      ∃ j,
        (GoDemoWeb.handleRoot [] (ascii "web-0") 7 {} Examples.getFooBar).response
          = (200, [j]) ∧
        j.lookup "uri" = some (.str (ascii "/foo/bar")) ∧
        ∃ h, j.lookup "headers" = some (.headers h) ∧
          h.lookup (ascii "X-Test") = some [ascii "1"] :=
  ⟨by decide, by decide, by decide, by decide,
    let ⟨j, hresp, _, huri, _, _, hall, _⟩ :=
      (C5_echo_members [] (ascii "web-0") 7 Examples.getFooBar).1
    ⟨j, hresp, huri (by decide) (by decide),
      hall (by decide) (ascii "X-Test") [ascii "1"] (by decide)⟩⟩

/-- C5 as stated fails.  The request-target `/` followed by the byte FF is echoed as `/`
followed by U+FFFD (the bytes EF BF BD): the uri member is not the exact request-target
string.  And a GET request whose header map is empty (`GET /`) is answered with a body
that has no headers member at all. -/
theorem C5_counterexample_invalid_utf8_and_no_headers :
    Examples.getInvalidUTF8.RequestURI = [0x2F, 0xFF] ∧
      (GoDemoWeb.handleRoot [] (ascii "web-0") 7 {} Examples.getInvalidUTF8).response =
        (200, [[("now", .int 7), ("uri", .str [0x2F, 0xEF, 0xBF, 0xBD]),
          ("headers", .headers [(ascii "X-Test", [ascii "1"])]),
          ("hostname", .str (ascii "web-0")),
          ("git_hash", .str (ascii "dev")), ("git_branch", .str (ascii "dev"))]]) ∧
      (GoWebServer.handleRoot [] (ascii "web-0") 7 {} Examples.getInvalidUTF8).1.response =
        (200, [[("now", .int 7), ("uri", .str [0x2F, 0xEF, 0xBF, 0xBD]),
          ("headers", .headers [(ascii "X-Test", [ascii "1"])]),
          ("hostname", .str (ascii "web-0")),
          ("git_hash", .str (ascii "dev")), ("git_branch", .str (ascii "dev"))]]) ∧
      (Examples.get "/").Header = [] ∧
      (GoDemoWeb.handleRoot [] (ascii "web-0") 7 {} (Examples.get "/")).response =
        (200, [[("now", .int 7), ("uri", .str (ascii "/")), ("hostname", .str (ascii "web-0")),
          ("git_hash", .str (ascii "dev")), ("git_branch", .str (ascii "dev"))]]) ∧
      (GoWebServer.handleRoot [] (ascii "web-0") 7 {} (Examples.get "/")).1.response =
        (200, [[("now", .int 7), ("uri", .str (ascii "/")), ("hostname", .str (ascii "web-0")),
          ("git_hash", .str (ascii "dev")), ("git_branch", .str (ascii "dev"))]]) := by
  decide

/-- C9 (amended): `getEnvar(name, d)` returns the variable's value when it is set, whatever
the value, and `d` when it is unset; `gitBranch()` and `gitHash()` do so for GIT_BRANCH and
GIT_HASH with the default "dev".  The echo response reports these strings as git_branch and
git_hash whenever they are non-empty, written by the JSON string encoder: unchanged when
they are valid UTF-8 (as the default "dev" is), each byte that is not valid UTF-8 replaced
by U+FFFD.  When the string is empty the member is left out of the body.  Both variants. -/
theorem C9_build_identification (env : OS.Environ) :
    (∀ name d value, env.lookup name = some value →
      GoDemoWeb.getEnvar env name d = value ∧ GoWebServer.getEnvar env name d = value) ∧
    (∀ name d, env.lookup name = none →
      GoDemoWeb.getEnvar env name d = d ∧ GoWebServer.getEnvar env name d = d) ∧
    (∀ value, env.lookup (ascii "GIT_BRANCH") = some value →
      GoDemoWeb.gitBranch env = value ∧ GoWebServer.gitBranch env = value) ∧
    (env.lookup (ascii "GIT_BRANCH") = none →
      GoDemoWeb.gitBranch env = ascii "dev" ∧ GoWebServer.gitBranch env = ascii "dev") ∧
    (∀ value, env.lookup (ascii "GIT_HASH") = some value →
      GoDemoWeb.gitHash env = value ∧ GoWebServer.gitHash env = value) ∧
    (env.lookup (ascii "GIT_HASH") = none →
      GoDemoWeb.gitHash env = ascii "dev" ∧ GoWebServer.gitHash env = ascii "dev") ∧
    (∀ hostname now req, ∃ j,
      (GoDemoWeb.handleRoot env hostname now {} req).body = [j] ∧
      j.lookup "git_branch" = (if GoDemoWeb.gitBranch env = ascii "" then none
        else some (.str (JSON.encodeString (GoDemoWeb.gitBranch env)))) ∧
      j.lookup "git_hash" = (if GoDemoWeb.gitHash env = ascii "" then none
        else some (.str (JSON.encodeString (GoDemoWeb.gitHash env)))) ∧
      (GoDemoWeb.gitBranch env ≠ ascii "" → UTF8.ValidString (GoDemoWeb.gitBranch env) = true →
        j.lookup "git_branch" = some (.str (GoDemoWeb.gitBranch env))) ∧
      (GoDemoWeb.gitHash env ≠ ascii "" → UTF8.ValidString (GoDemoWeb.gitHash env) = true →
        j.lookup "git_hash" = some (.str (GoDemoWeb.gitHash env))) ∧
      (env.lookup (ascii "GIT_BRANCH") = none →
        j.lookup "git_branch" = some (.str (ascii "dev"))) ∧
      (env.lookup (ascii "GIT_HASH") = none →
        j.lookup "git_hash" = some (.str (ascii "dev")))) ∧
    (∀ hostname now req, ∃ j,
      (GoWebServer.handleRoot env hostname now {} req).1.body = [j] ∧
      j.lookup "git_branch" = (if GoWebServer.gitBranch env = ascii "" then none
        else some (.str (JSON.encodeString (GoWebServer.gitBranch env)))) ∧
      j.lookup "git_hash" = (if GoWebServer.gitHash env = ascii "" then none
        else some (.str (JSON.encodeString (GoWebServer.gitHash env)))) ∧
      (GoWebServer.gitBranch env ≠ ascii "" → UTF8.ValidString (GoWebServer.gitBranch env) = true →
        j.lookup "git_branch" = some (.str (GoWebServer.gitBranch env))) ∧
      (GoWebServer.gitHash env ≠ ascii "" → UTF8.ValidString (GoWebServer.gitHash env) = true →
        j.lookup "git_hash" = some (.str (GoWebServer.gitHash env))) ∧
      (env.lookup (ascii "GIT_BRANCH") = none →
        j.lookup "git_branch" = some (.str (ascii "dev"))) ∧
      (env.lookup (ascii "GIT_HASH") = none →
        j.lookup "git_hash" = some (.str (ascii "dev")))) := by
  refine ⟨?_, ?_, ?_, ?_, ?_, ?_, ?_, ?_⟩
  · intro name d value h
    simp [demoWeb_getEnvar_eq, webServer_getEnvar_eq, h]
  · intro name d h
    simp [demoWeb_getEnvar_eq, webServer_getEnvar_eq, h]
  · intro value h
    simp [GoDemoWeb.gitBranch, GoWebServer.gitBranch, demoWeb_getEnvar_eq,
      webServer_getEnvar_eq, h]
  · intro h
    simp [GoDemoWeb.gitBranch, GoWebServer.gitBranch, demoWeb_getEnvar_eq,
      webServer_getEnvar_eq, h]
  · intro value h
    simp [GoDemoWeb.gitHash, GoWebServer.gitHash, demoWeb_getEnvar_eq,
      webServer_getEnvar_eq, h]
  · intro h
    simp [GoDemoWeb.gitHash, GoWebServer.gitHash, demoWeb_getEnvar_eq,
      webServer_getEnvar_eq, h]
  · intro hostname now req
    obtain ⟨j, hj, -, -, -, -, hhash, hbranch⟩ :=
      demoWeb_rootResponse_Marshal_members now req.RequestURI req.Header hostname
        (GoDemoWeb.gitHash env) (GoDemoWeb.gitBranch env)
    have hresp := demoWeb_handleRoot_response env hostname now req j hj
    refine ⟨j, by rw [body_eq_response_snd, hresp], hbranch, hhash, ?_, ?_, ?_, ?_⟩
    · intro hne hvalid
      rw [hbranch, if_neg hne, encodeString_of_valid _ hvalid]
    · intro hne hvalid
      rw [hhash, if_neg hne, encodeString_of_valid _ hvalid]
    · intro hunset
      have hdev : GoDemoWeb.gitBranch env = ascii "dev" := by
        simp [GoDemoWeb.gitBranch, demoWeb_getEnvar_eq, hunset]
      rw [hbranch, hdev]
      decide
    · intro hunset
      have hdev : GoDemoWeb.gitHash env = ascii "dev" := by
        simp [GoDemoWeb.gitHash, demoWeb_getEnvar_eq, hunset]
      rw [hhash, hdev]
      decide
  · intro hostname now req
    obtain ⟨j, hj, -, -, -, -, hhash, hbranch⟩ :=
      webServer_rootResponse_Marshal_members now req.RequestURI req.Header hostname
        (GoWebServer.gitHash env) (GoWebServer.gitBranch env)
    have hresp := webServer_handleRoot_response env hostname now req j hj
    refine ⟨j, by rw [body_eq_response_snd, hresp], hbranch, hhash, ?_, ?_, ?_, ?_⟩
    · intro hne hvalid
      rw [hbranch, if_neg hne, encodeString_of_valid _ hvalid]
    · intro hne hvalid
      rw [hhash, if_neg hne, encodeString_of_valid _ hvalid]
    · intro hunset
      have hdev : GoWebServer.gitBranch env = ascii "dev" := by
        simp [GoWebServer.gitBranch, webServer_getEnvar_eq, hunset]
      rw [hbranch, hdev]
      decide
    · intro hunset
      have hdev : GoWebServer.gitHash env = ascii "dev" := by
        simp [GoWebServer.gitHash, webServer_getEnvar_eq, hunset]
      rw [hhash, hdev]
      decide

/-- C9, an instance: with GIT_BRANCH=main set and GIT_HASH unset, the branch is "main", the
hash is "dev", and the echo body reports them so. -/
theorem C9_build_identification_witness :
    List.lookup (ascii "GIT_BRANCH") [(ascii "GIT_BRANCH", ascii "main")]
        = some (ascii "main") ∧
      List.lookup (ascii "GIT_HASH") [(ascii "GIT_BRANCH", ascii "main")] = none ∧
      GoDemoWeb.gitBranch [(ascii "GIT_BRANCH", ascii "main")] = ascii "main" ∧
      GoWebServer.gitBranch [(ascii "GIT_BRANCH", ascii "main")] = ascii "main" ∧
      GoDemoWeb.gitHash [(ascii "GIT_BRANCH", ascii "main")] = ascii "dev" ∧
      GoWebServer.gitHash [(ascii "GIT_BRANCH", ascii "main")] = ascii "dev" ∧
      ∃ j,
        (GoDemoWeb.handleRoot [(ascii "GIT_BRANCH", ascii "main")] (ascii "web-0") 7 {}
          Examples.getFooBar).body = [j] ∧
        j.lookup "git_branch" = some (.str (ascii "main")) ∧
        j.lookup "git_hash" = some (.str (ascii "dev")) :=
  ⟨by decide, by decide,
    ((C9_build_identification [(ascii "GIT_BRANCH", ascii "main")]).2.2.1
      (ascii "main") (by decide)).1,
    ((C9_build_identification [(ascii "GIT_BRANCH", ascii "main")]).2.2.1
      (ascii "main") (by decide)).2,
    ((C9_build_identification [(ascii "GIT_BRANCH", ascii "main")]).2.2.2.2.2.1
      (by decide)).1,
    ((C9_build_identification [(ascii "GIT_BRANCH", ascii "main")]).2.2.2.2.2.1
      (by decide)).2,
    let ⟨j, hbody, _, _, hbranch, _, _, hhash⟩ :=
      (C9_build_identification [(ascii "GIT_BRANCH", ascii "main")]).2.2.2.2.2.2.1
        (ascii "web-0") 7 Examples.getFooBar
    ⟨j, hbody, hbranch (by decide) (by decide), hhash (by decide)⟩⟩

/-- C9 as stated fails: with GIT_HASH set to the empty string, `gitHash()` returns the empty
string, as claimed, but the echo response reports no git_hash at all: its body has no such
member, in both variants. -/
theorem C9_counterexample_empty_git_hash :
    List.lookup (ascii "GIT_HASH") [(ascii "GIT_HASH", ascii "")] = some (ascii "") ∧
      GoDemoWeb.gitHash [(ascii "GIT_HASH", ascii "")] = ascii "" ∧
      GoWebServer.gitHash [(ascii "GIT_HASH", ascii "")] = ascii "" ∧
      (GoDemoWeb.handleRoot [(ascii "GIT_HASH", ascii "")] (ascii "web-0") 7 {}
          Examples.getFooBar).response =
        (200, [[("now", .int 7), ("uri", .str (ascii "/foo/bar")),
          ("headers", .headers [(ascii "X-Test", [ascii "1"])]),
          ("hostname", .str (ascii "web-0")), ("git_branch", .str (ascii "dev"))]]) ∧
      (GoWebServer.handleRoot [(ascii "GIT_HASH", ascii "")] (ascii "web-0") 7 {}
          Examples.getFooBar).1.response =
        (200, [[("now", .int 7), ("uri", .str (ascii "/foo/bar")),
          ("headers", .headers [(ascii "X-Test", [ascii "1"])]),
          ("hostname", .str (ascii "web-0")), ("git_branch", .str (ascii "dev"))]]) ∧
      ∀ j ∈ (GoDemoWeb.handleRoot [(ascii "GIT_HASH", ascii "")] (ascii "web-0") 7 {}
          Examples.getFooBar).body, j.lookup "git_hash" = none := by
  decide

end Echo

/-! ## Route precedence -/

section Routing

open HTTP Mux

/-- A cleaned segment list written as a path starts with a slash. -/
theorem pathCleanRooted_head (p : GoString) :
    ∃ rest, pathCleanRooted p = slash :: rest := by
  unfold pathCleanRooted
  cases cleanSegments [] (splitSlash p) with
  | nil => exact ⟨[], rfl⟩
  | cons seg segs => exact ⟨seg ++ joinSlash segs, rfl⟩

/-- The canonical form of a URL path starts with a slash. -/
theorem cleanPath_head (p : GoString) : ∃ rest, cleanPath p = slash :: rest := by
  unfold cleanPath
  by_cases hp : p = []
  · rw [if_pos hp]
    exact ⟨[], rfl⟩
  · rw [if_neg hp]
    obtain ⟨rest, hrest⟩ :=
      pathCleanRooted_head (if p.head? = some slash then p else slash :: p)
    simp only [hrest]
    split_ifs <;> first | exact ⟨rest ++ [slash], rfl⟩ | exact ⟨rest, rfl⟩

/-- The route table of go-demo-web on a GET request. -/
theorem demoWeb_runHTTPServer_Match_get (req : Request) (hget : req.Method = ascii "GET") :
    GoDemoWeb.runHTTPServer.Match req =
      if req.Path = ascii "/health" then .handler .health
      else if req.Path = ascii "/randomResult" then .handler .handleRandomError
      else if (ascii "/").isPrefixOf req.Path then .handler .handleRoot
      else .notFound := by
  simp only [GoDemoWeb.runHTTPServer, GoDemoWeb.routes, Router.NewRouter, Router.HandleFunc,
    Router.register, Route.Path, Route.PathPrefix, Route.Methods, Route.HandlerFunc,
    Router.Match, List.nil_append, List.cons_append, Router.matchRoutes, Route.Match,
    Route.matchLoop, Matcher.Match, hget, MethodGet]
  by_cases h1 : req.Path = ascii "/health"
  · simp [h1]
  · by_cases h2 : req.Path = ascii "/randomResult"
    · have hne : ascii "/randomResult" ≠ ascii "/health" := by decide
      simp [h2, hne]
    · by_cases h3 : (ascii "/").isPrefixOf req.Path <;> simp [h1, h2, h3]

/-- The route table of go-web-server on a GET request. -/
theorem webServer_runHTTPServer_Match_get (req : Request) (hget : req.Method = ascii "GET") :
    GoWebServer.runHTTPServer.Match req =
      if req.Path = ascii "/health" then .handler .health
      else if (ascii "/").isPrefixOf req.Path then .handler .handleRoot
      else .notFound := by
  simp only [GoWebServer.runHTTPServer, GoWebServer.routes, Router.NewRouter, Router.HandleFunc,
    Router.register, Route.Path, Route.PathPrefix, Route.Methods, Route.HandlerFunc,
    Router.Match, List.nil_append, List.cons_append, Router.matchRoutes, Route.Match,
    Route.matchLoop, Matcher.Match, hget, MethodGet]
  by_cases h1 : req.Path = ascii "/health"
  · simp [h1]
  · by_cases h3 : (ascii "/").isPrefixOf req.Path <;> simp [h1, h3]

/-- A URL path in canonical form starts with a slash. -/
theorem isPrefixOf_of_cleanPath_eq (p : GoString) (h : cleanPath p = p) :
    (ascii "/").isPrefixOf p = true := by
  obtain ⟨rest, hrest⟩ := cleanPath_head p
  rw [h] at hrest
  rw [hrest]
  show ([slash] : GoString).isPrefixOf (slash :: rest) = true
  simp [List.isPrefixOf]

/-- C6 (amended): in the router built by `runHTTPServer` (health route first, then the
feature routes, then the catch-all prefix route, tried first to last), a GET request to
/health is dispatched to the health reporter's handler and never to the echo handler; in
go-demo-web a GET to /randomResult is dispatched to `handleRandomError` and never to the
echo handler; every other GET request whose URL path is in canonical form is dispatched to
the echo handler.  A request whose URL path is not in canonical form (a doubled slash, a
`.` or `..` segment, no leading slash) reaches no handler: the router answers it with a
redirect to the canonical path.  In the route table taken alone, every GET path that
starts with a slash and is not claimed by an earlier route matches the echo route. -/
theorem C6_route_precedence (req : Request) (hget : req.Method = ascii "GET") :
    (req.Path = ascii "/health" →
      GoDemoWeb.runHTTPServer.ServeHTTP req = .handler .health ∧
      GoWebServer.runHTTPServer.ServeHTTP req = .handler .health ∧
      GoDemoWeb.runHTTPServer.ServeHTTP req ≠ .handler .handleRoot ∧
      GoWebServer.runHTTPServer.ServeHTTP req ≠ .handler .handleRoot) ∧
    (req.Path = ascii "/randomResult" →
      GoDemoWeb.runHTTPServer.ServeHTTP req = .handler .handleRandomError ∧
      GoDemoWeb.runHTTPServer.ServeHTTP req ≠ .handler .handleRoot) ∧
    (cleanPath req.Path = req.Path → req.Path ≠ ascii "/health" → req.Path ≠ ascii "/randomResult" →
      GoDemoWeb.runHTTPServer.ServeHTTP req = .handler .handleRoot) ∧
    (cleanPath req.Path = req.Path → req.Path ≠ ascii "/health" →
      GoWebServer.runHTTPServer.ServeHTTP req = .handler .handleRoot) ∧
    (cleanPath req.Path ≠ req.Path →
      GoDemoWeb.runHTTPServer.ServeHTTP req = .redirect (cleanPath req.Path) ∧
      GoWebServer.runHTTPServer.ServeHTTP req = .redirect (cleanPath req.Path)) ∧
    ((ascii "/").isPrefixOf req.Path = true → req.Path ≠ ascii "/health" →
      (req.Path ≠ ascii "/randomResult" → GoDemoWeb.runHTTPServer.Match req = .handler .handleRoot) ∧
      GoWebServer.runHTTPServer.Match req = .handler .handleRoot) := by
  have hclean : ∀ r : Router, cleanPath req.Path = req.Path → r.ServeHTTP req = r.Match req := by
    intro r h
    simp [Router.ServeHTTP, h]
  have hhealth : cleanPath (ascii "/health") = ascii "/health" := by decide
  have hrandom : cleanPath (ascii "/randomResult") = ascii "/randomResult" := by decide
  refine ⟨?_, ?_, ?_, ?_, ?_, ?_⟩
  · intro hpath
    have hc : cleanPath req.Path = req.Path := by rw [hpath]; exact hhealth
    rw [hclean _ hc, hclean _ hc, demoWeb_runHTTPServer_Match_get req hget,
      webServer_runHTTPServer_Match_get req hget, if_pos hpath, if_pos hpath]
    exact ⟨rfl, rfl, by decide, by decide⟩
  · intro hpath
    have hc : cleanPath req.Path = req.Path := by rw [hpath]; exact hrandom
    have hne : req.Path ≠ ascii "/health" := by rw [hpath]; decide
    rw [hclean _ hc, demoWeb_runHTTPServer_Match_get req hget, if_neg hne, if_pos hpath]
    exact ⟨rfl, by decide⟩
  · intro hc h1 h2
    rw [hclean _ hc, demoWeb_runHTTPServer_Match_get req hget, if_neg h1, if_neg h2,
      if_pos (isPrefixOf_of_cleanPath_eq req.Path hc)]
  · intro hc h1
    rw [hclean _ hc, webServer_runHTTPServer_Match_get req hget, if_neg h1,
      if_pos (isPrefixOf_of_cleanPath_eq req.Path hc)]
  · intro hc
    simp [Router.ServeHTTP, hc]
  · intro hslash h1
    refine ⟨fun h2 => ?_, ?_⟩
    · rw [demoWeb_runHTTPServer_Match_get req hget, if_neg h1, if_neg h2, if_pos hslash]
    · rw [webServer_runHTTPServer_Match_get req hget, if_neg h1, if_pos hslash]

/-- C6, instances: `GET /health` goes to the health handler, `GET /randomResult` to
`handleRandomError` in go-demo-web and to the echo handler in go-web-server, and
`GET /foo/bar` to the echo handler. -/
theorem C6_route_precedence_witness :
    Examples.getFooBar.Method = ascii "GET" ∧
      cleanPath Examples.getFooBar.Path = Examples.getFooBar.Path ∧
      GoDemoWeb.runHTTPServer.ServeHTTP (Examples.get "/health") = .handler .health ∧
      GoDemoWeb.runHTTPServer.ServeHTTP (Examples.get "/randomResult")
        = .handler .handleRandomError ∧
      GoDemoWeb.runHTTPServer.ServeHTTP Examples.getFooBar = .handler .handleRoot ∧
      GoWebServer.runHTTPServer.ServeHTTP (Examples.get "/randomResult")
        = .handler .handleRoot :=
  ⟨by decide, by decide,
    ((C6_route_precedence (Examples.get "/health") (by decide)).1 (by decide)).1,
    ((C6_route_precedence (Examples.get "/randomResult") (by decide)).2.1 (by decide)).1,
    (C6_route_precedence Examples.getFooBar (by decide)).2.2.1
      (by decide) (by decide) (by decide),
    (C6_route_precedence (Examples.get "/randomResult") (by decide)).2.2.2.1
      (by decide) (by decide)⟩

/-- C6 as stated fails: `GET /foo//bar` is a GET to a path other than /health and
/randomResult, and it is not dispatched to the echo handler: in both variants the router
answers with a redirect to /foo/bar. -/
theorem C6_counterexample_unclean_path :
    (Examples.get "/foo//bar").Method = ascii "GET" ∧
      GoDemoWeb.runHTTPServer.ServeHTTP (Examples.get "/foo//bar") = .redirect (ascii "/foo/bar") ∧
      GoWebServer.runHTTPServer.ServeHTTP (Examples.get "/foo//bar") = .redirect (ascii "/foo/bar") ∧
      GoDemoWeb.runHTTPServer.ServeHTTP (Examples.get "/foo//bar") ≠ .handler .handleRoot := by
  decide

end Routing

/-! ## Trace endpoint selection -/

section TraceEndpoint

/-- A string of length zero is the empty string. -/
theorem length_eq_zero_iff_eq_empty (v : GoString) : v.length = 0 ↔ v = ascii "" := by
  constructor
  · intro h
    exact List.length_eq_zero.mp h
  · intro h
    rw [h]
    rfl

/-- C10 (amended): whenever the -jaeger-endpoint flag is given with a non-empty value, that
value is the endpoint passed to `newTracerProvider`, regardless of JAEGER_TRACE_URL; when
the flag is not given, or is given with the empty value, the endpoint is the value of
JAEGER_TRACE_URL, and the empty string (no exporter) when that is unset.  Both variants. -/
theorem C10_trace_endpoint (env : OS.Environ) :
    (∀ v, v ≠ ascii "" →
      (GoDemoWeb.main (some v) env).1 = v ∧ (GoWebServer.main (some v) env).1 = v) ∧
    (∀ url, env.lookup (ascii "JAEGER_TRACE_URL") = some url →
      (GoDemoWeb.main none env).1 = url ∧ (GoWebServer.main none env).1 = url ∧
      (GoDemoWeb.main (some (ascii "")) env).1 = url ∧
      (GoWebServer.main (some (ascii "")) env).1 = url) ∧
    (env.lookup (ascii "JAEGER_TRACE_URL") = none →
      (GoDemoWeb.main none env).1 = ascii "" ∧ (GoWebServer.main none env).1 = ascii "" ∧
      (GoDemoWeb.main (some (ascii "")) env).1 = ascii "" ∧
      (GoWebServer.main (some (ascii "")) env).1 = ascii "" ∧
      GoDemoWeb.newTracerProvider (GoDemoWeb.main none env).1 (GoDemoWeb.main none env).2
        = none ∧
      GoWebServer.newTracerProvider (GoWebServer.main none env).1 (GoWebServer.main none env).2
        = none) := by
  refine ⟨?_, ?_, ?_⟩
  · intro v hv
    have hlen : v.length ≠ 0 := fun h => hv ((length_eq_zero_iff_eq_empty v).mp h)
    simp [GoDemoWeb.main, GoWebServer.main, hlen]
  · intro url h
    simp [GoDemoWeb.main, GoWebServer.main, demoWeb_getEnvar_eq, webServer_getEnvar_eq, h,
      ascii_empty]
  · intro h
    simp [GoDemoWeb.main, GoWebServer.main, demoWeb_getEnvar_eq, webServer_getEnvar_eq, h,
      GoDemoWeb.newTracerProvider, GoWebServer.newTracerProvider, ascii_empty]

/-- C10, instances: the flag value wins over the variable; without the flag the variable is
used. -/
theorem C10_trace_endpoint_witness :
    ascii "http://flag:14268/api/traces" ≠ ascii "" ∧
      List.lookup (ascii "JAEGER_TRACE_URL") [(ascii "JAEGER_TRACE_URL", ascii "http://env:14268/api/traces")]
        = some (ascii "http://env:14268/api/traces") ∧
      (GoDemoWeb.main (some (ascii "http://flag:14268/api/traces"))
          [(ascii "JAEGER_TRACE_URL", ascii "http://env:14268/api/traces")]).1
        = ascii "http://flag:14268/api/traces" ∧
      (GoDemoWeb.main none [(ascii "JAEGER_TRACE_URL", ascii "http://env:14268/api/traces")]).1
        = ascii "http://env:14268/api/traces" :=
  ⟨by decide, by decide,
    ((C10_trace_endpoint [(ascii "JAEGER_TRACE_URL", ascii "http://env:14268/api/traces")]).1
      (ascii "http://flag:14268/api/traces") (by decide)).1,
    ((C10_trace_endpoint [(ascii "JAEGER_TRACE_URL", ascii "http://env:14268/api/traces")]).2.1
      (ascii "http://env:14268/api/traces") (by decide)).1⟩

/-- C10 as stated fails: with the flag present on the command line with the empty value
(`-jaeger-endpoint=`) and JAEGER_TRACE_URL set, the endpoint passed to `newTracerProvider`
is the variable's value, not the flag's. -/
theorem C10_counterexample_empty_flag :
    (GoDemoWeb.main (some (ascii "")) [(ascii "JAEGER_TRACE_URL", ascii "http://env:14268/api/traces")]).1
        = ascii "http://env:14268/api/traces" ∧
      (GoWebServer.main (some (ascii "")) [(ascii "JAEGER_TRACE_URL", ascii "http://env:14268/api/traces")]).1
        = ascii "http://env:14268/api/traces" ∧
      (GoDemoWeb.main (some (ascii "")) [(ascii "JAEGER_TRACE_URL", ascii "http://env:14268/api/traces")]).1
        ≠ ascii "" := by
  decide

end TraceEndpoint
